import Mathlib

/-!
Shallow embedding of the authentication / session / RBAC subsystem of the
needhomes backend (NestJS + Prisma + Redis), covering:

  * `CacheService` (src/src/cache/cache.service.ts) — Redis-backed key-value
    store with specialised helpers for permission caching, OTP tracking,
    refresh tokens and per-user session lists;
  * `RbacService` (auth/rbac.service.ts) — role / permission resolution over
    the relational join tables, with cache invalidation;
  * `AuthService` (auth/auth.service.ts) — register / login / verifyEmail /
    refreshAccessToken / logout flows;
  * `JwtStrategy.validate` and `PermissionsGuard.canActivate`.

Modelling conventions:
  * Redis is a string-keyed JSON store; since every helper uses a distinct
    key prefix (`user:<id>:permissions`, `otp:<email>`, `refresh:<token>`,
    `sessions:<userId>`, ...), each prefix family is modelled as its own
    association-list store keyed by the raw id/email/token.  All claims
    below concern a single key family or a single fixed key, for which this
    split is observationally identical to the single flat keyspace.
  * TTLs are not modelled (no claim under study depends on expiry timing).
  * Randomness (`crypto.randomUUID`, `crypto.randomBytes`) and clock reads
    (`new Date().toISOString()`) are passed in as explicit parameters.
  * `async`/`await` sequencing is modelled by explicit state passing; a
    thrown exception aborts the remaining steps but keeps the state
    mutations already performed, so every service operation returns both
    the resulting state and an `Except` outcome.
-/

/-- An association-list model of one Redis key family (`redis.get`/`set`/`del`
with JSON (de)serialisation elided: values are stored typed). -/
abbrev Store (V : Type) : Type := List (String × V)

namespace Store

def get {V : Type} (m : Store V) (k : String) : Option V :=
  List.lookup k m

def set {V : Type} (m : Store V) (k : String) (v : V) : Store V :=
  (k, v) :: m.filter (fun p => !(p.1 == k))

def del {V : Type} (m : Store V) (k : String) : Store V :=
  m.filter (fun p => !(p.1 == k))

theorem get_filter_ne {V : Type} (m : Store V) (k : String) :
    List.lookup k (m.filter (fun p => !(p.1 == k))) = none := by
  induction m with
  | nil => rfl
  | cons hd tl ih =>
    obtain ⟨a, v⟩ := hd
    rw [List.filter_cons]
    by_cases h : a = k
    · simpa [h] using ih
    · rw [if_pos (by simpa using h)]
      have hba : (k == a) = false := by
        simp only [beq_eq_false_iff_ne]
        exact fun hc => h hc.symm
      simpa [List.lookup, hba] using ih

theorem get_filter_other {V : Type} (m : Store V) (k k' : String)
    (h : k' ≠ k) :
    List.lookup k' (m.filter (fun p => !(p.1 == k))) = List.lookup k' m := by
  induction m with
  | nil => rfl
  | cons hd tl ih =>
    obtain ⟨a, v⟩ := hd
    rw [List.filter_cons]
    by_cases hk : a = k
    · rw [if_neg (by simpa using hk)]
      rw [ih]
      have hba : (k' == a) = false := by
        simp only [beq_eq_false_iff_ne]
        exact fun hc => h (hc.trans hk)
      simp [List.lookup, hba]
    · rw [if_pos (by simpa using hk)]
      by_cases hk' : k' = a
      · simp [List.lookup, hk']
      · have hba : (k' == a) = false := by
          simpa only [beq_eq_false_iff_ne] using hk'
        simp only [List.lookup, hba]
        exact ih

theorem get_set_self {V : Type} (m : Store V) (k : String) (v : V) :
    get (set m k v) k = some v := by
  simp [get, set, List.lookup]

theorem get_set_other {V : Type} (m : Store V) (k k' : String) (v : V)
    (h : k' ≠ k) : get (set m k v) k' = get m k' := by
  simp only [get, set, List.lookup]
  rw [show (k' == k) = false by simp [h]]
  exact get_filter_other m k k' h

theorem get_del_self {V : Type} (m : Store V) (k : String) :
    get (del m k) k = none := by
  simpa [get, del] using get_filter_ne m k

theorem get_del_other {V : Type} (m : Store V) (k k' : String)
    (h : k' ≠ k) : get (del m k) k' = get m k' := by
  simpa [get, del] using get_filter_other m k k' h

end Store

/-! ## Data model -/

/-- One entry of the per-user session list
(`{sessionId, deviceInfo, createdAt, lastActive}` in
`CacheService.addUserSession`). -/
structure SessionRecord where
  sessionId : String
  deviceInfo : String
  createdAt : String
  lastActive : String
deriving Repr, DecidableEq

/-- Refresh-token record stored under `refresh:<token>`
(`{userId, sessionId, createdAt, deviceInfo}` in
`CacheService.storeRefreshToken`). -/
structure RefreshData where
  userId : String
  sessionId : String
  createdAt : String
  deviceInfo : String
deriving Repr, DecidableEq

/-- The columns of the Prisma `User` table that the auth subsystem reads.
`deletedAt = some _` is the soft-delete marker. -/
structure User where
  id : String
  email : String
  phone : String
  password : String
  firstName : Option String
  lastName : Option String
  companyName : Option String
  accountType : String
  accountStatus : String
  isEmailVerified : Bool
  deletedAt : Option String
deriving Repr, DecidableEq

/-- A row of the Prisma `Role` table. -/
structure Role where
  id : String
  name : String
deriving Repr, DecidableEq

/-- The relational store: users plus the RBAC tables.  `rolePermissions`
holds `(roleId, permissionKey)` pairs — foreign-key integrity lets us inline
`rolePermission.permission.key` directly.  `userRoles` holds
`(userId, roleId)` pairs. -/
structure Db where
  users : List User
  roles : List Role
  rolePermissions : List (String × String)
  userRoles : List (String × String)
deriving Repr, DecidableEq

/-- The Redis keyspace split by key prefix (see header comment). -/
structure CacheState where
  userPermissions : Store (List String)
  userRoles : Store (List String)
  otp : Store String
  otpAttempts : Store Nat
  refreshTokens : Store RefreshData
  sessions : Store (List SessionRecord)
deriving Repr, DecidableEq

/-- The exception kinds thrown by the subsystem: the Nest HTTP exceptions
plus `internalError` for a plain `throw new Error(...)`. -/
inductive AppException where
  | unauthorized (msg : String)
  | forbidden (msg : String)
  | badRequest (msg : String)
  | conflict (msg : String)
  | notFound (msg : String)
  | internalError (msg : String)
deriving Repr, DecidableEq

/-! ## CacheService (src/src/cache/cache.service.ts) -/

namespace CacheService

/-- `cacheUserPermissions`: `set user:<id>:permissions` (15 min TTL). -/
def cacheUserPermissions (c : CacheState) (userId : String)
    (permissions : List String) : CacheState :=
  { c with userPermissions := c.userPermissions.set userId permissions }

/-- `getUserPermissions`: `get user:<id>:permissions`. -/
def getUserPermissions (c : CacheState) (userId : String) :
    Option (List String) :=
  c.userPermissions.get userId

/-- `cacheUserRoles`: `set user:<id>:roles` (15 min TTL). -/
def cacheUserRoles (c : CacheState) (userId : String)
    (roles : List String) : CacheState :=
  { c with userRoles := c.userRoles.set userId roles }

/-- `getUserRoles`: `get user:<id>:roles`. -/
def getUserRoles (c : CacheState) (userId : String) : Option (List String) :=
  c.userRoles.get userId

/-- `invalidateUserCache`: delete both `user:<id>:permissions` and
`user:<id>:roles`. -/
def invalidateUserCache (c : CacheState) (userId : String) : CacheState :=
  { c with
      userPermissions := c.userPermissions.del userId
      userRoles := c.userRoles.del userId }

/-- `storeOTP`: `set otp:<email>` (5 min TTL). -/
def storeOTP (c : CacheState) (email otpValue : String) : CacheState :=
  { c with otp := c.otp.set email otpValue }

/-- `getOTP`: `get otp:<email>`. -/
def getOTP (c : CacheState) (email : String) : Option String :=
  c.otp.get email

/-- `deleteOTP`: `del otp:<email>`. -/
def deleteOTP (c : CacheState) (email : String) : CacheState :=
  { c with otp := c.otp.del email }

/-- `getOTPAttempts`: `(await this.get<number>(key)) || 0`. -/
def getOTPAttempts (c : CacheState) (email : String) : Nat :=
  (c.otpAttempts.get email).getD 0

/-- `incrementOTPAttempts`: read-increment-write of `otp:attempts:<email>`
(15 min TTL). -/
def incrementOTPAttempts (c : CacheState) (email : String) : CacheState :=
  { c with otpAttempts := c.otpAttempts.set email (getOTPAttempts c email + 1) }

/-- `resetOTPAttempts`: `del otp:attempts:<email>`. -/
def resetOTPAttempts (c : CacheState) (email : String) : CacheState :=
  { c with otpAttempts := c.otpAttempts.del email }

/-- `storeRefreshToken`: `set refresh:<token>` to
`{userId, sessionId, createdAt: now, deviceInfo}` (30 day TTL). -/
def storeRefreshToken (c : CacheState) (refreshToken userId sessionId
    deviceInfo now : String) : CacheState :=
  let sessionData : RefreshData :=
    { userId := userId, sessionId := sessionId, createdAt := now,
      deviceInfo := deviceInfo }
  { c with refreshTokens := c.refreshTokens.set refreshToken sessionData }

/-- `getRefreshToken`: `get refresh:<token>`. -/
def getRefreshToken (c : CacheState) (refreshToken : String) :
    Option RefreshData :=
  c.refreshTokens.get refreshToken

/-- `deleteRefreshToken`: `del refresh:<token>`. -/
def deleteRefreshToken (c : CacheState) (refreshToken : String) : CacheState :=
  { c with refreshTokens := c.refreshTokens.del refreshToken }

/-- `getUserSessions`: `(await this.get<any[]>(key)) || []` on
`sessions:<userId>`. -/
def getUserSessions (c : CacheState) (userId : String) : List SessionRecord :=
  (c.sessions.get userId).getD []

/-- `addUserSession`: read the list (or `[]`), push
`{sessionId, deviceInfo, createdAt: now, lastActive: now}`, rewrite the whole
list (30 day TTL). -/
def addUserSession (c : CacheState) (userId sessionId deviceInfo now : String) :
    CacheState :=
  let rec' : SessionRecord :=
    { sessionId := sessionId, deviceInfo := deviceInfo,
      createdAt := now, lastActive := now }
  let sessions := getUserSessions c userId ++ [rec']
  { c with sessions := c.sessions.set userId sessions }

/-- `removeUserSession`: filter out entries with the given `sessionId`; if the
filtered list is non-empty rewrite it, otherwise delete the key. -/
def removeUserSession (c : CacheState) (userId sessionId : String) :
    CacheState :=
  let filtered := (getUserSessions c userId).filter
    (fun s => !(s.sessionId == sessionId))
  if filtered.length > 0 then
    { c with sessions := c.sessions.set userId filtered }
  else
    { c with sessions := c.sessions.del userId }

/-- `removeAllUserSessions`: `del sessions:<userId>`. -/
def removeAllUserSessions (c : CacheState) (userId : String) : CacheState :=
  { c with sessions := c.sessions.del userId }

/-- `isSessionValid`: `sessions.some(s => s.sessionId === sessionId)`. -/
def isSessionValid (c : CacheState) (userId sessionId : String) : Bool :=
  (getUserSessions c userId).any (fun s => s.sessionId == sessionId)

/-- `updateSessionActivity`: map over the list refreshing `lastActive` of the
matching entry, rewrite the whole list. -/
def updateSessionActivity (c : CacheState) (userId sessionId now : String) :
    CacheState :=
  let updated := ((c.sessions.get userId).getD []).map
    (fun s => if s.sessionId == sessionId then { s with lastActive := now }
              else s)
  { c with sessions := c.sessions.set userId updated }

end CacheService

/-! ## RbacService (auth/rbac.service.ts) -/

/-- Insertion-order deduplication: the behaviour of collecting into a JS
`Set` and reading it back with `Array.from` (first occurrence wins). -/
def jsSetDedup (l : List String) : List String :=
  l.foldl (fun acc x => if x ∈ acc then acc else acc ++ [x]) []

/-- `prisma.user.findUnique({where: {id}})`. -/
def findUserById (db : Db) (userId : String) : Option User :=
  db.users.find? (fun u => u.id == userId)

/-- The `roleId`s joined to a user through the `UserRole` table, in row
order. -/
def roleIdsOfUser (db : Db) (userId : String) : List String :=
  (db.userRoles.filter (fun p => p.1 == userId)).map (fun p => p.2)

/-- The permission keys joined to a role through the `RolePermission`
table, in row order. -/
def permKeysOfRole (db : Db) (roleId : String) : List String :=
  (db.rolePermissions.filter (fun p => p.1 == roleId)).map (fun p => p.2)

namespace RbacService

/-- `getUserPermissions`: load the user with roles → role → permissions →
permission, return `[]` if the user does not exist, otherwise collect
`rolePermission.permission.key` over all roles into a `Set` and flatten. -/
def getUserPermissions (db : Db) (userId : String) : List String :=
  match findUserById db userId with
  | none => []
  | some _ =>
      jsSetDedup ((roleIdsOfUser db userId).flatMap (permKeysOfRole db))

/-- `getUserRoles`: load the user with roles → role, return `[]` if the user
does not exist, otherwise map to `userRole.role.name` (the `Role` row exists
by foreign-key integrity; a dangling id is skipped). -/
def getUserRoles (db : Db) (userId : String) : List String :=
  match findUserById db userId with
  | none => []
  | some _ =>
      (roleIdsOfUser db userId).filterMap
        (fun rid => (db.roles.find? (fun r => r.id == rid)).map Role.name)

/-- `assignRoleToUser`: look up the role by name (`throw new Error` if
missing), upsert the `(userId, roleId)` join row (`update: {}` makes the
existing-row branch a no-op), then `invalidateUserCache`. -/
def assignRoleToUser (db : Db) (c : CacheState) (userId roleName : String) :
    Except AppException (Db × CacheState) :=
  match db.roles.find? (fun r => r.name == roleName) with
  | none => .error (.internalError ("Role " ++ roleName ++ " not found"))
  | some role =>
      let db' :=
        if (userId, role.id) ∈ db.userRoles then db
        else { db with userRoles := db.userRoles ++ [(userId, role.id)] }
      .ok (db', CacheService.invalidateUserCache c userId)

end RbacService

/-! ## PermissionsGuard (auth/guards/permissions.guard.ts) -/

/-- The shape of `request.user` that `PermissionsGuard` inspects:
`permissions = none` models a principal without a permissions array
(`!user.permissions || !Array.isArray(user.permissions)`). -/
structure RequestUser where
  permissions : Option (List String)
deriving Repr, DecidableEq

namespace PermissionsGuard

/-- `canActivate`: `requiredPermissions = none` models a route with no
`@Permissions` metadata (`getAllAndOverride` returned `undefined`);
`user = none` models an unauthenticated request. -/
def canActivate (requiredPermissions : Option (List String))
    (user : Option RequestUser) : Except AppException Bool :=
  match requiredPermissions with
  | none => .ok true
  | some reqs =>
      if reqs.length = 0 then .ok true
      else
        match user with
        | none => .error (.forbidden "User not authenticated")
        | some u =>
            match u.permissions with
            | none => .error (.forbidden "User has no permissions assigned")
            | some perms =>
                if reqs.all (fun p => p ∈ perms) then .ok true
                else .error (.forbidden
                  ("Missing required permissions: " ++
                    String.intercalate ", " reqs))

end PermissionsGuard

/-! ## Shared helpers -/

/-- `String.prototype.toUpperCase()` for the ASCII strings used here,
written over the character list so that it evaluates by `decide`/`rfl`. -/
def jsToUpper (s : String) : String :=
  String.mk (s.data.map Char.toUpper)

/-- JS truthiness of an optional string (`undefined`/`null`/`""` are
falsy). -/
def jsFalsyStr (o : Option String) : Bool :=
  match o with
  | none => true
  | some s => s == ""

/-- The payload of a signed access token (`jwtService.sign({...})`); signing
itself is cryptographic and is modelled as the payload value. -/
structure TokenPayload where
  sub : String
  email : String
  roles : List String
  permissions : List String
  sessionId : String
deriving Repr, DecidableEq

/-- `getRolesAndPermissionsWithCache` — defined identically as a private
method of both `AuthService` and `JwtStrategy`: read both cache entries; on
a double hit (JS: two non-`undefined` values, an empty array is truthy)
return them, otherwise re-derive from the database through `RbacService`
and write both entries back. -/
def getRolesAndPermissionsWithCache (db : Db) (c : CacheState)
    (userId : String) : List String × List String × CacheState :=
  match CacheService.getUserRoles c userId,
        CacheService.getUserPermissions c userId with
  | some roles, some perms => (roles, perms, c)
  | _, _ =>
      let roles := RbacService.getUserRoles db userId
      let perms := RbacService.getUserPermissions db userId
      let c1 := CacheService.cacheUserRoles c userId roles
      let c2 := CacheService.cacheUserPermissions c1 userId perms
      (roles, perms, c2)

/-- Outcome of a service operation: the database and cache after all the
mutations performed before returning or throwing, plus the returned value
or thrown exception. -/
structure OpResult (α : Type) where
  db : Db
  cache : CacheState
  out : Except AppException α
deriving Repr

/-- Abbreviation for an operation outcome that throws `e` leaving the given
database and cache. -/
def errResult {α : Type} (db : Db) (c : CacheState) (e : AppException) :
    OpResult α :=
  { db := db, cache := c, out := Except.error e }

/-! ## User repository (prisma.base.repository.ts)

`AuthService` reaches the `User` table through `UserRepository`, which
extends `PrismaBaseRepository`.  That wrapper spreads the caller's filter
and injects `deleted_at: null` into every `where` clause
(`prisma.base.repository.ts:30` for `findOne`, `:46` for `update`).  The
`User` model's soft-delete field is `deletedAt` (camel case: every
migration creates the column `"deletedAt"`, and the typed call sites —
`jwt.strategy.ts` selecting `deletedAt`, `user.service.ts` writing
`{ deletedAt: new Date() }` — only exist for a camel-case schema field; the
`$extends` soft-delete middleware in `prisma.service.ts` discards its
result and is dead code).  Prisma rejects a `where` mentioning an unknown
field with a `PrismaClientValidationError`, so every call through the
wrapper throws before touching a row. -/

/-- The field names of the Prisma `User` model (from the migrations and
the typed call sites); note `deletedAt`, not `deleted_at`. -/
def userModelFields : List String :=
  ["id", "email", "phone", "password", "firstName", "lastName",
   "companyName", "accountType", "account_status",
   "account_verification_status", "referral_source", "isEmailVerified",
   "createdAt", "updatedAt", "deletedAt"]

/-- A Prisma `where` argument for the `User` model: each condition is the
targeted field name paired with the row predicate it denotes. -/
abbrev UserWhere : Type := List (String × (User → Bool))

/-- The Prisma client's `user.findFirst`: a `where` mentioning a field
unknown to the model is rejected with a `PrismaClientValidationError`;
otherwise the first matching row (or none) is returned. -/
def prismaUserFindFirst (db : Db) (w : UserWhere) :
    Except AppException (Option User) :=
  match w.find? (fun p => !(userModelFields.contains p.1)) with
  | some bad =>
      Except.error (AppException.internalError
        ("PrismaClientValidationError: Unknown argument " ++ bad.1))
  | none => Except.ok (db.users.find? (fun u => w.all (fun p => p.2 u)))

/-- The Prisma client's `user.update`: same `where` validation; a missing
row is a `P2025` error, otherwise the matching row is updated and
returned. -/
def prismaUserUpdate (db : Db) (w : UserWhere) (upd : User → User) :
    Except AppException (Db × User) :=
  match w.find? (fun p => !(userModelFields.contains p.1)) with
  | some bad =>
      Except.error (AppException.internalError
        ("PrismaClientValidationError: Unknown argument " ++ bad.1))
  | none =>
      match db.users.find? (fun u => w.all (fun p => p.2 u)) with
      | none =>
          Except.error (AppException.internalError
            "Record to update not found")
      | some u =>
          let users1 := db.users.map
            (fun x => if w.all (fun p => p.2 x) then upd x else x)
          Except.ok ({ db with users := users1 }, upd u)

/-- `PrismaBaseRepository.findOne` (prisma.base.repository.ts:30):
`findFirst({ where: { ...uniqueFilter, deleted_at: null } })` — the
injected `deleted_at` key is unknown to the `User` model, so the call
always throws. -/
def userRepoFindOne (db : Db) (w : UserWhere) :
    Except AppException (Option User) :=
  prismaUserFindFirst db (w ++ [("deleted_at", fun u => u.deletedAt.isNone)])

/-- `PrismaBaseRepository.update` (prisma.base.repository.ts:46): injects
the same unknown `deleted_at: null` into the `where`. -/
def userRepoUpdate (db : Db) (w : UserWhere) (upd : User → User) :
    Except AppException (Db × User) :=
  prismaUserUpdate db (w ++ [("deleted_at", fun u => u.deletedAt.isNone)])
    upd

/-! ## AuthService (auth/auth.service.ts) -/

namespace AuthService

/-- The fields of `RegisterDto` the register flow reads. -/
structure RegisterDto where
  email : String
  password : String
  firstName : Option String
  lastName : Option String
  phone : String
  companyName : Option String
deriving Repr, DecidableEq

/-- `generateTokensWithSession`: mint the access-token payload, store the
refresh token record, and append the session to the user's list.  The
random `sessionId` and `refreshToken` and the clock reading `now` are
explicit parameters. -/
def generateTokensWithSession (c : CacheState) (userId email : String)
    (roles permissions : List String) (deviceInfo sessionId refreshToken
    now : String) : CacheState × TokenPayload × String × String :=
  let accessToken : TokenPayload :=
    { sub := userId, email := email, roles := roles,
      permissions := permissions, sessionId := sessionId }
  let c1 := CacheService.storeRefreshToken c refreshToken userId sessionId
    deviceInfo now
  let c2 := CacheService.addUserSession c1 userId sessionId deviceInfo now
  (c2, accessToken, refreshToken, sessionId)

/-- `register`: validate the account type and name fields, normalise the
phone (`internationalisePhoneNumber` is an explicit parameter `intlPhone`,
see `modelIntlPhone`), then look the email up through
`userRepository.findOne` — which throws the `deleted_at` validation error
on every call, making the duplicate checks and the creation path
unreachable; the remaining branches embed the source's intended flow
(conflict on duplicate email, bad request on duplicate phone, create user,
assign `USER` role, store OTP).  `hashedPassword`, `newUserId` and
`otpValue` stand for the bcrypt hash, the generated id and the random
OTP. -/
def register (db : Db) (c : CacheState) (dto : RegisterDto)
    (accountType : String) (intlPhone : String → String)
    (hashedPassword newUserId otpValue : String) : OpResult String :=
  let up := jsToUpper accountType
  if ¬ (up = "INDIVIDUAL" ∨ up = "CORPORATE") then
    errResult db c (.badRequest
      "Account type must be either INDIVIDUAL or CORPORATE")
  else if up = "INDIVIDUAL" ∧ (jsFalsyStr dto.firstName ∨
      jsFalsyStr dto.lastName) then
    errResult db c (.badRequest
      "First name and last name are required for individual accounts")
  else if up = "CORPORATE" ∧ jsFalsyStr dto.companyName then
    errResult db c (.badRequest
      "Company name is required for corporate accounts")
  else
    let internationalPhone := intlPhone dto.phone
    match userRepoFindOne db [("email", fun u => u.email == dto.email)] with
    | .error e => errResult db c e
    | .ok (some _) => errResult db c (.conflict "Email already registered")
    | .ok none =>
        match userRepoFindOne db
            [("phone", fun u => u.phone == internationalPhone)] with
        | .error e => errResult db c e
        | .ok (some _) =>
            errResult db c (.badRequest "Phone number already registered")
        | .ok none =>
            let newUser : User :=
              { id := newUserId, email := dto.email,
                phone := internationalPhone, password := hashedPassword,
                firstName := if jsFalsyStr dto.firstName then none
                             else dto.firstName,
                lastName := if jsFalsyStr dto.lastName then none
                            else dto.lastName,
                companyName := if jsFalsyStr dto.companyName then none
                               else dto.companyName,
                accountType := up, accountStatus := "ACTIVE",
                isEmailVerified := false, deletedAt := none }
            let db1 := { db with users := db.users ++ [newUser] }
            match RbacService.assignRoleToUser db1 c newUserId "USER" with
            | .error e => { db := db1, cache := c, out := .error e }
            | .ok (db2, c2) =>
                let c3 := CacheService.storeOTP c2 dto.email otpValue
                { db := db2, cache := c3,
                  out := .ok "Registration successful. Please verify your email with the OTP sent." }

/-- `login`: look the user up by email through `userRepository.findOne` —
which throws the `deleted_at` validation error on every call, so no branch
past the lookup is reachable; the remaining branches embed the source's
intended flow (credential check via the `checkPw` oracle for
`bcrypt.compare`, status and verification checks, token issuance). -/
def login (db : Db) (c : CacheState) (email password : String)
    (checkPw : String → String → Bool) (deviceInfo sessionId refreshToken
    otpValue now : String) : OpResult (TokenPayload × String × String) :=
  match userRepoFindOne db [("email", fun u => u.email == email)] with
  | .error e => errResult db c e
  | .ok none =>
      { db := db, cache := c,
        out := .error (.unauthorized "Invalid credentials") }
  | .ok (some user) =>
      if user.deletedAt.isSome then
        { db := db, cache := c,
          out := .error (.unauthorized "Invalid credentials") }
      else if ¬ checkPw password user.password then
        { db := db, cache := c,
          out := .error (.unauthorized "Invalid credentials") }
      else if user.accountStatus ≠ "ACTIVE" then
        { db := db, cache := c,
          out := .error (.unauthorized "Account is not active") }
      else if ¬ user.isEmailVerified then
        let c1 := CacheService.storeOTP c user.email otpValue
        { db := db, cache := c1,
          out := .error (.forbidden
            "Email not verified. A new verification code has been sent to your email.") }
      else
        let rp := getRolesAndPermissionsWithCache db c user.id
        let g := generateTokensWithSession rp.2.2 user.id user.email rp.1
          rp.2.1 deviceInfo sessionId refreshToken now
        { db := db, cache := g.1, out := .ok g.2 }

/-- `verifyEmail`: reject when the attempt counter has reached 5 (before
reading the OTP), reject a missing/expired OTP, increment the counter and
reject on mismatch; on match the flow calls `userRepository.update` to flip
`isEmailVerified` — which throws the `deleted_at` validation error before
the OTP cleanup — and the unreachable success branch embeds the intended
cleanup and token issuance. -/
def verifyEmail (db : Db) (c : CacheState) (email otpSubmitted : String)
    (deviceInfo sessionId refreshToken now : String) :
    OpResult (TokenPayload × String × String) :=
  let attempts := CacheService.getOTPAttempts c email
  if attempts ≥ 5 then
    { db := db, cache := c,
      out := .error (.badRequest
        "Too many failed attempts. Please request a new OTP.") }
  else
    match CacheService.getOTP c email with
    | none =>
        { db := db, cache := c,
          out := .error (.badRequest
            "OTP expired or not found. Please request a new OTP.") }
    | some cachedOTP =>
        if cachedOTP ≠ otpSubmitted then
          let c1 := CacheService.incrementOTPAttempts c email
          { db := db, cache := c1,
            out := .error (.badRequest "Invalid OTP") }
        else
          match userRepoUpdate db [("email", fun u => u.email == email)]
              (fun u => { u with isEmailVerified := true }) with
          | .error e => errResult db c e
          | .ok (db1, user) =>
              let c1 := CacheService.deleteOTP c email
              let c2 := CacheService.resetOTPAttempts c1 email
              let rp := getRolesAndPermissionsWithCache db1 c2 user.id
              let g := generateTokensWithSession rp.2.2 user.id user.email
                rp.1 rp.2.1 deviceInfo sessionId refreshToken now
              { db := db1, cache := g.1, out := .ok g.2 }

/-- `refreshAccessToken`: validate the opaque token against the cache,
then look the user up through `userRepository.findOne` — which throws the
`deleted_at` validation error on every call, so the rotation (delete the
old refresh-token record, store the new one under the fresh random token
`newRefreshToken`) is unreachable; the remaining branches embed the
source's intended flow. -/
def refreshAccessToken (db : Db) (c : CacheState) (refreshToken : String)
    (newDeviceInfo : Option String) (newRefreshToken now : String) :
    OpResult (TokenPayload × String) :=
  match CacheService.getRefreshToken c refreshToken with
  | none =>
      { db := db, cache := c,
        out := .error (.unauthorized "Invalid refresh token") }
  | some sessionData =>
      match userRepoFindOne db
          [("id", fun u => u.id == sessionData.userId)] with
      | .error e => errResult db c e
      | .ok none =>
          { db := db, cache := c,
            out := .error (.unauthorized "User not found or not verified") }
      | .ok (some user) =>
          if ¬ user.isEmailVerified then
            { db := db, cache := c,
              out := .error (.unauthorized "User not found or not verified") }
          else
            let rp := getRolesAndPermissionsWithCache db c
              sessionData.userId
            let newAccessToken : TokenPayload :=
              { sub := sessionData.userId, email := user.email,
                roles := rp.1, permissions := rp.2.1,
                sessionId := sessionData.sessionId }
            let c2 := CacheService.deleteRefreshToken rp.2.2 refreshToken
            let c3 := CacheService.storeRefreshToken c2 newRefreshToken
              sessionData.userId sessionData.sessionId
              (newDeviceInfo.getD sessionData.deviceInfo) now
            { db := db, cache := c3,
              out := .ok (newAccessToken, newRefreshToken) }

/-- `logoutSession`: remove the one session entry (the associated refresh
token is not deleted — noted as such in the source). -/
def logoutSession (c : CacheState) (userId sessionId : String) : CacheState :=
  CacheService.removeUserSession c userId sessionId

/-- `logoutAllSessions`: remove the whole session list. -/
def logoutAllSessions (c : CacheState) (userId : String) : CacheState :=
  CacheService.removeAllUserSessions c userId

end AuthService

/-! ## JwtStrategy (auth/strategies/jwt.strategy.ts) -/

/-- The JWT payload fields `validate` reads (`sub` and `sessionId`); a
missing `sessionId` claim is `none`. -/
structure JwtPayload where
  sub : String
  sessionId : Option String
deriving Repr, DecidableEq

/-- The `request.user` object built by `JwtStrategy.validate`. -/
structure ValidatedUser where
  id : String
  email : String
  sessionId : Option String
  roles : List String
  permissions : List String
deriving Repr, DecidableEq

namespace JwtStrategy

/-- `validate`: look the user up (reject missing / soft-deleted / non-ACTIVE
accounts); then — only when the payload carries a truthy `sessionId`
(`if (sessionId)`) — require it to be in the user's session list and touch
its `lastActive`; finally resolve roles/permissions (cache-first) and build
the request principal. -/
def validate (db : Db) (c : CacheState) (payload : JwtPayload)
    (now : String) : CacheState × Except AppException ValidatedUser :=
  let userId := payload.sub
  match findUserById db userId with
  | none => (c, .error (.unauthorized "User not found or deleted"))
  | some user =>
      if user.deletedAt.isSome then
        (c, .error (.unauthorized "User not found or deleted"))
      else if user.accountStatus ≠ "ACTIVE" then
        (c, .error (.unauthorized "Account is not active"))
      else
        match payload.sessionId with
        | some sid =>
            if sid ≠ "" then
              if ¬ CacheService.isSessionValid c userId sid then
                (c, .error (.unauthorized "Session expired or invalid"))
              else
                let c1 := CacheService.updateSessionActivity c userId sid now
                let rp := getRolesAndPermissionsWithCache db c1 userId
                let u : ValidatedUser :=
                  { id := user.id, email := user.email,
                    sessionId := payload.sessionId, roles := rp.1,
                    permissions := rp.2.1 }
                (rp.2.2, .ok u)
            else
              let rp := getRolesAndPermissionsWithCache db c userId
              let u : ValidatedUser :=
                { id := user.id, email := user.email,
                  sessionId := payload.sessionId, roles := rp.1,
                  permissions := rp.2.1 }
              (rp.2.2, .ok u)
        | none =>
            let rp := getRolesAndPermissionsWithCache db c userId
            let u : ValidatedUser :=
              { id := user.id, email := user.email,
                sessionId := payload.sessionId, roles := rp.1,
                permissions := rp.2.1 }
            (rp.2.2, .ok u)

end JwtStrategy

/-! ## Helper lemmas -/

theorem getUserSessions_del (c : CacheState) (userId : String) :
    CacheService.getUserSessions
      { c with sessions := c.sessions.del userId } userId = [] := by
  simp [CacheService.getUserSessions, Store.get_del_self]

theorem grpCache_preserves (db : Db) (c : CacheState) (userId : String) :
    ((getRolesAndPermissionsWithCache db c userId).2.2).otp = c.otp ∧
    ((getRolesAndPermissionsWithCache db c userId).2.2).otpAttempts
      = c.otpAttempts ∧
    ((getRolesAndPermissionsWithCache db c userId).2.2).refreshTokens
      = c.refreshTokens ∧
    ((getRolesAndPermissionsWithCache db c userId).2.2).sessions
      = c.sessions := by
  unfold getRolesAndPermissionsWithCache
  cases hr : CacheService.getUserRoles c userId with
  | none =>
      simp [CacheService.cacheUserRoles, CacheService.cacheUserPermissions]
  | some roles =>
      cases hp : CacheService.getUserPermissions c userId with
      | none =>
          simp [CacheService.cacheUserRoles,
            CacheService.cacheUserPermissions]
      | some perms => simp

/-- C6: after `logoutAllSessions(userId)` the user's session list is empty,
so `isSessionValid(userId, s)` is `false` for every session id `s`: a
previously valid access token's session check fails on the next request. -/
theorem C6_logout_all_invalidates_every_session (c : CacheState)
    (userId : String) :
    CacheService.getUserSessions (AuthService.logoutAllSessions c userId)
      userId = [] ∧
    ∀ s, CacheService.isSessionValid (AuthService.logoutAllSessions c userId)
      userId s = false := by
  have hempty : CacheService.getUserSessions
      (AuthService.logoutAllSessions c userId) userId = [] := by
    simp [AuthService.logoutAllSessions, CacheService.removeAllUserSessions,
      CacheService.getUserSessions, Store.get_del_self]
  exact ⟨hempty, fun s => by simp [CacheService.isSessionValid, hempty]⟩

/-- C10: `removeUserSession` removes exactly the records whose `sessionId`
matches and keeps every other record (in order); when nothing remains it
deletes the per-user key, and `getUserSessions` subsequently returns `[]`. -/
theorem C10_remove_user_session_filters (c : CacheState)
    (userId sessionId : String) :
    CacheService.getUserSessions
        (CacheService.removeUserSession c userId sessionId) userId
      = (CacheService.getUserSessions c userId).filter
          (fun s => !(s.sessionId == sessionId)) ∧
    ((CacheService.getUserSessions c userId).filter
        (fun s => !(s.sessionId == sessionId)) = [] →
      Store.get (CacheService.removeUserSession c userId sessionId).sessions
        userId = none) := by
  unfold CacheService.removeUserSession
  by_cases h : ((CacheService.getUserSessions c userId).filter
      (fun s => !(s.sessionId == sessionId))).length > 0
  · refine ⟨?_, ?_⟩
    · simp only [h, if_pos]
      simp [CacheService.getUserSessions, Store.get_set_self]
    · intro hnil
      rw [hnil] at h
      simp at h
  · refine ⟨?_, ?_⟩
    · simp only [h, if_neg]
      have hnil : (CacheService.getUserSessions c userId).filter
          (fun s => !(s.sessionId == sessionId)) = [] := by
        cases hf : (CacheService.getUserSessions c userId).filter
            (fun s => !(s.sessionId == sessionId)) with
        | nil => rfl
        | cons a l => rw [hf] at h; simp at h
      rw [hnil]
      simp [CacheService.getUserSessions, Store.get_del_self]
    · intro _
      simp only [h, if_neg]
      simp [Store.get_del_self]

/-- C10 witness: concrete two-session list — the matching record is removed,
the other kept; emptying branch checked via the theorem's inner implication
on a singleton list. -/
theorem C10_remove_user_session_filters_witness :
    CacheService.getUserSessions
        (CacheService.removeUserSession
          { userPermissions := [], userRoles := [], otp := [],
            otpAttempts := [], refreshTokens := [],
            sessions := [("u1",
              [{ sessionId := "s1", deviceInfo := "d1", createdAt := "t1",
                 lastActive := "t1" },
               { sessionId := "s2", deviceInfo := "d2", createdAt := "t2",
                 lastActive := "t2" }])] } "u1" "s1") "u1"
      = [{ sessionId := "s2", deviceInfo := "d2", createdAt := "t2",
           lastActive := "t2" }] := by
  exact (C10_remove_user_session_filters _ "u1" "s1").1.trans (by decide)

/-- C5: `PermissionsGuard.canActivate` returns `true` exactly when the route
declares no permissions (or an empty list) or the attached principal has a
permissions array containing every declared permission; in every other case
it throws a forbidden error. -/
theorem C5_permissions_guard_fails_closed (req : Option (List String))
    (user : Option RequestUser) :
    (PermissionsGuard.canActivate req user = Except.ok true ↔
      (req = none ∨ req = some [] ∨
        ∃ reqs u perms, req = some reqs ∧ user = some u ∧
          u.permissions = some perms ∧ ∀ p ∈ reqs, p ∈ perms)) ∧
    (¬ (req = none ∨ req = some [] ∨
        ∃ reqs u perms, req = some reqs ∧ user = some u ∧
          u.permissions = some perms ∧ ∀ p ∈ reqs, p ∈ perms) →
      ∃ m, PermissionsGuard.canActivate req user
        = Except.error (AppException.forbidden m)) := by
  cases req with
  | none => simp [PermissionsGuard.canActivate]
  | some reqs =>
    cases reqs with
    | nil => simp [PermissionsGuard.canActivate]
    | cons p ps =>
      cases user with
      | none => simp [PermissionsGuard.canActivate]
      | some u =>
        cases hu : u.permissions with
        | none =>
            simp [PermissionsGuard.canActivate, hu]
        | some perms =>
            have key : PermissionsGuard.canActivate (some (p :: ps)) (some u)
                = (if (p :: ps).all (fun q => decide (q ∈ perms))
                   then Except.ok true
                   else Except.error (AppException.forbidden
                     ("Missing required permissions: "
                       ++ String.intercalate ", " (p :: ps)))) := by
              simp [PermissionsGuard.canActivate, hu]
            by_cases hb : ((p :: ps).all (fun q => decide (q ∈ perms))) = true
            · have hall : ∀ q ∈ p :: ps, q ∈ perms := by
                simpa [List.all_eq_true] using hb
              have hres : PermissionsGuard.canActivate (some (p :: ps))
                  (some u) = Except.ok true := by rw [key, if_pos hb]
              refine ⟨?_, ?_⟩
              · rw [hres]
                exact ⟨fun _ => Or.inr (Or.inr ⟨p :: ps, u, perms, rfl, rfl,
                  hu, hall⟩), fun _ => rfl⟩
              · intro hcon
                exact absurd (Or.inr (Or.inr ⟨p :: ps, u, perms, rfl, rfl,
                  hu, hall⟩)) hcon
            · have hnall : ¬ ∀ q ∈ p :: ps, q ∈ perms := by
                intro h
                exact hb (by simpa [List.all_eq_true] using h)
              have hres : PermissionsGuard.canActivate (some (p :: ps))
                  (some u) = Except.error (AppException.forbidden
                    ("Missing required permissions: "
                      ++ String.intercalate ", " (p :: ps))) := by
                rw [key, if_neg (by simpa using hb)]
              refine ⟨?_, ?_⟩
              · rw [hres]
                constructor
                · intro hcon; simp at hcon
                · intro hcon
                  rcases hcon with h1 | h2 | ⟨reqs2, u2, perms2, hr, hus,
                    hup, hforall⟩
                  · exact absurd h1 (by simp)
                  · exact absurd h2 (by simp)
                  · obtain rfl : reqs2 = p :: ps := by simpa using hr.symm
                    obtain rfl : u2 = u := by simpa using hus.symm
                    rw [hu] at hup
                    obtain rfl : perms2 = perms := by simpa using hup.symm
                    exact absurd hforall hnall
              · intro _
                rw [hres]
                exact ⟨_, rfl⟩

theorem jsSetDedup_go_nodup (l acc : List String) (h : acc.Nodup) :
    (List.foldl (fun acc x => if x ∈ acc then acc else acc ++ [x]) acc
      l).Nodup := by
  induction l generalizing acc with
  | nil => exact h
  | cons y l ih =>
    simp only [List.foldl_cons]
    by_cases hy : y ∈ acc
    · rw [if_pos hy]; exact ih acc h
    · rw [if_neg hy]
      exact ih (acc ++ [y]) (by simp [List.nodup_append, h, hy])

theorem jsSetDedup_go_mem (l acc : List String) (x : String) :
    x ∈ List.foldl (fun acc x => if x ∈ acc then acc else acc ++ [x]) acc l
      ↔ x ∈ acc ∨ x ∈ l := by
  induction l generalizing acc with
  | nil => simp
  | cons y l ih =>
    simp only [List.foldl_cons]
    by_cases hy : y ∈ acc
    · rw [if_pos hy, ih]
      constructor
      · rintro (h | h)
        · exact Or.inl h
        · exact Or.inr (List.mem_cons_of_mem y h)
      · rintro (h | h)
        · exact Or.inl h
        · rcases List.mem_cons.mp h with rfl | h
          · exact Or.inl hy
          · exact Or.inr h
    · rw [if_neg hy, ih]
      simp only [List.mem_append, List.mem_singleton, List.mem_cons]
      tauto

theorem jsSetDedup_nodup (l : List String) : (jsSetDedup l).Nodup :=
  jsSetDedup_go_nodup l [] List.nodup_nil

theorem mem_jsSetDedup (l : List String) (x : String) :
    x ∈ jsSetDedup l ↔ x ∈ l := by
  simpa using jsSetDedup_go_mem l [] x

theorem mem_roleIdsOfUser (db : Db) (userId rid : String) :
    rid ∈ roleIdsOfUser db userId ↔ (userId, rid) ∈ db.userRoles := by
  simp only [roleIdsOfUser, List.mem_map, List.mem_filter, beq_iff_eq]
  constructor
  · rintro ⟨⟨a1, a2⟩, ⟨hmem, h1⟩, h2⟩
    simp only at h1 h2
    rw [h1, h2] at hmem
    exact hmem
  · intro h
    exact ⟨(userId, rid), ⟨h, rfl⟩, rfl⟩

theorem mem_permKeysOfRole (db : Db) (roleId k : String) :
    k ∈ permKeysOfRole db roleId ↔ (roleId, k) ∈ db.rolePermissions := by
  simp only [permKeysOfRole, List.mem_map, List.mem_filter, beq_iff_eq]
  constructor
  · rintro ⟨⟨a1, a2⟩, ⟨hmem, h1⟩, h2⟩
    simp only at h1 h2
    rw [h1, h2] at hmem
    exact hmem
  · intro h
    exact ⟨(roleId, k), ⟨h, rfl⟩, rfl⟩

/-- C4: `RbacService.getUserPermissions` returns a duplicate-free list whose
members are exactly the permission keys reachable through some role assigned
to the user (the union over all assigned roles), and returns `[]` when no
user matches the id. -/
theorem C4_user_permissions_union (db : Db) (userId : String) :
    (findUserById db userId = none →
      RbacService.getUserPermissions db userId = []) ∧
    (RbacService.getUserPermissions db userId).Nodup ∧
    (∀ u, findUserById db userId = some u →
      ∀ k, k ∈ RbacService.getUserPermissions db userId ↔
        ∃ rid, (userId, rid) ∈ db.userRoles ∧
          (rid, k) ∈ db.rolePermissions) := by
  unfold RbacService.getUserPermissions
  cases h : findUserById db userId with
  | none =>
    refine ⟨fun _ => rfl, List.nodup_nil, ?_⟩
    intro u hu
    exact absurd hu (by simp)
  | some u =>
    refine ⟨fun hc => absurd hc (by simp), jsSetDedup_nodup _, ?_⟩
    intro u' _ k
    rw [mem_jsSetDedup, List.mem_flatMap]
    constructor
    · rintro ⟨rid, hrid, hk⟩
      exact ⟨rid, (mem_roleIdsOfUser db userId rid).mp hrid,
        (mem_permKeysOfRole db rid k).mp hk⟩
    · rintro ⟨rid, hrid, hk⟩
      exact ⟨rid, (mem_roleIdsOfUser db userId rid).mpr hrid,
        (mem_permKeysOfRole db rid k).mpr hk⟩

/-- A concrete user row used in witnesses and counterexamples. -/
def mkUser (id email phone : String) : User :=
  { id := id, email := email, phone := phone, password := "h",
    firstName := some "F", lastName := some "L", companyName := none,
    accountType := "INDIVIDUAL", accountStatus := "ACTIVE",
    isEmailVerified := true, deletedAt := none }

/-- The empty cache. -/
def emptyCache : CacheState :=
  { userPermissions := [], userRoles := [], otp := [], otpAttempts := [],
    refreshTokens := [], sessions := [] }

/-- A concrete database: one user `u1` with roles `r1` (USER) and `r2`
(ADMIN); the two roles share the `user.read` permission. -/
def C4exDb : Db :=
  { users := [mkUser "u1" "a@b.com" "+15550001"],
    roles := [{ id := "r1", name := "USER" }, { id := "r2", name := "ADMIN" }],
    rolePermissions := [("r1", "user.read"), ("r2", "user.read"),
      ("r2", "user.delete_all")],
    userRoles := [("u1", "r1"), ("u1", "r2")] }

/-- C4 witness: a user with two roles sharing a permission - membership of
the shared key in the union checked through the theorem. -/
theorem C4_user_permissions_union_witness :
    "user.read" ∈ RbacService.getUserPermissions C4exDb "u1" := by
  refine ((C4_user_permissions_union C4exDb "u1").2.2 (mkUser "u1" "a@b.com"
    "+15550001") (by decide) "user.read").mpr ?_
  exact ⟨"r1", by decide, by decide⟩

/-- C9: when the verified payload carries no `sessionId`, `JwtStrategy.validate`
skips the session-validity check entirely and accepts any existing,
non-deleted, ACTIVE user — the cache `c` is arbitrary, so this holds in
particular when the user has no session records; when the payload carries a
(non-empty) `sessionId` that is not in the user's session list, it rejects
with an unauthorized error. -/
theorem C9_jwt_validate_session_check (db : Db) (c : CacheState)
    (payload : JwtPayload) (now : String) (u : User)
    (hfind : findUserById db payload.sub = some u)
    (hdel : u.deletedAt = none) (hact : u.accountStatus = "ACTIVE") :
    (payload.sessionId = none →
      ∃ v, (JwtStrategy.validate db c payload now).2 = Except.ok v) ∧
    (∀ sid, payload.sessionId = some sid → sid ≠ "" →
      CacheService.isSessionValid c payload.sub sid = false →
      (JwtStrategy.validate db c payload now).2
        = Except.error (AppException.unauthorized
            "Session expired or invalid")) := by
  constructor
  · intro hnone
    simp only [JwtStrategy.validate, hfind, hdel, hact, hnone]
    exact ⟨_, rfl⟩
  · intro sid hsid hne hinvalid
    simp only [JwtStrategy.validate, hfind, hdel, hact, hsid]
    simp [hne, hinvalid]

/-- C9 witness: with an empty cache, a payload without `sessionId` is
accepted and a payload with an unknown `sessionId` is rejected. -/
theorem C9_jwt_validate_session_check_witness :
    (∃ v, (JwtStrategy.validate C4exDb emptyCache
      { sub := "u1", sessionId := none } "t0").2 = Except.ok v) ∧
    (JwtStrategy.validate C4exDb emptyCache
      { sub := "u1", sessionId := some "sX" } "t0").2
        = Except.error (AppException.unauthorized
            "Session expired or invalid") := by
  constructor
  · exact (C9_jwt_validate_session_check C4exDb emptyCache
      { sub := "u1", sessionId := none } "t0"
      (mkUser "u1" "a@b.com" "+15550001") (by decide) (by decide)
      (by decide)).1 rfl
  · exact (C9_jwt_validate_session_check C4exDb emptyCache
      { sub := "u1", sessionId := some "sX" } "t0"
      (mkUser "u1" "a@b.com" "+15550001") (by decide) (by decide)
      (by decide)).2 "sX" rfl (by decide) (by decide)


theorem getOTPAttempts_increment (c : CacheState) (email : String) :
    CacheService.getOTPAttempts (CacheService.incrementOTPAttempts c email)
      email = CacheService.getOTPAttempts c email + 1 := by
  simp [CacheService.getOTPAttempts, CacheService.incrementOTPAttempts,
    Store.get_set_self]

theorem generateTokens_otpAttempts (c : CacheState) (userId email : String)
    (roles permissions : List String) (deviceInfo sessionId refreshToken
    now : String) :
    ((AuthService.generateTokensWithSession c userId email roles permissions
      deviceInfo sessionId refreshToken now).1).otpAttempts
      = c.otpAttempts := by
  simp [AuthService.generateTokensWithSession, CacheService.addUserSession,
    CacheService.storeRefreshToken]

theorem grpCache_otpAttempts (db : Db) (c : CacheState) (userId : String) :
    ((getRolesAndPermissionsWithCache db c userId).2.2).otpAttempts
      = c.otpAttempts :=
  (grpCache_preserves db c userId).2.1

theorem grpCache_refreshTokens (db : Db) (c : CacheState) (userId : String) :
    ((getRolesAndPermissionsWithCache db c userId).2.2).refreshTokens
      = c.refreshTokens :=
  (grpCache_preserves db c userId).2.2.1

theorem grpCache_sessions (db : Db) (c : CacheState) (userId : String) :
    ((getRolesAndPermissionsWithCache db c userId).2.2).sessions
      = c.sessions :=
  (grpCache_preserves db c userId).2.2.2

/-- C3: when the attempt counter for an email has reached 5, `verifyEmail`
rejects with a bad-request error and touches nothing — in particular it
never reads or compares the submitted OTP, so the 6th attempt fails even
with the correct OTP; and the stored counter is incremented (by exactly one)
precisely on submissions that are under the cap and mismatch the cached
OTP. -/
theorem C3_otp_attempt_cap_and_increment (db : Db) (c : CacheState)
    (email otpSubmitted dev sid rtok now : String) :
    (CacheService.getOTPAttempts c email ≥ 5 →
      (AuthService.verifyEmail db c email otpSubmitted dev sid rtok
          now).out
        = Except.error (AppException.badRequest
            "Too many failed attempts. Please request a new OTP.") ∧
      (AuthService.verifyEmail db c email otpSubmitted dev sid rtok
          now).cache = c) ∧
    (CacheService.getOTPAttempts
        (AuthService.verifyEmail db c email otpSubmitted dev sid rtok
          now).cache email
      = CacheService.getOTPAttempts c email + 1 ↔
      (CacheService.getOTPAttempts c email < 5 ∧
        ∃ cached, CacheService.getOTP c email = some cached ∧
          cached ≠ otpSubmitted)) := by
  by_cases hcap : CacheService.getOTPAttempts c email ≥ 5
  · have hr : AuthService.verifyEmail db c email otpSubmitted dev sid rtok
        now = errResult db c (AppException.badRequest
          "Too many failed attempts. Please request a new OTP.") := by
      simp only [AuthService.verifyEmail]
      rw [if_pos hcap]
      rfl
    refine ⟨fun _ => ⟨by rw [hr]; rfl, by rw [hr]; rfl⟩, ?_⟩
    rw [hr]
    constructor
    · intro habs
      simp only [errResult] at habs
      exact absurd habs (by omega)
    · rintro ⟨hlt, -⟩
      exact absurd hlt (by omega)
  · have hlt : CacheService.getOTPAttempts c email < 5 := by omega
    cases hotp : CacheService.getOTP c email with
    | none =>
      have hr : AuthService.verifyEmail db c email otpSubmitted dev sid
          rtok now = errResult db c (AppException.badRequest
            "OTP expired or not found. Please request a new OTP.") := by
        simp only [AuthService.verifyEmail, hotp]
        rw [if_neg hcap]
        rfl
      refine ⟨fun h => absurd h hcap, ?_⟩
      rw [hr]
      constructor
      · intro habs
        simp only [errResult] at habs
        exact absurd habs (by omega)
      · rintro ⟨-, cached, hc, -⟩
        exact absurd hc (by simp)
    | some cached =>
      by_cases heq : cached = otpSubmitted
      · have hr : AuthService.verifyEmail db c email otpSubmitted dev sid
            rtok now = errResult db c (AppException.internalError
              "PrismaClientValidationError: Unknown argument deleted_at")
            := by
          simp only [AuthService.verifyEmail, hotp]
          rw [if_neg hcap, if_neg (not_not_intro heq)]
          rfl
        refine ⟨fun h => absurd h hcap, ?_⟩
        rw [hr]
        constructor
        · intro habs
          simp only [errResult] at habs
          exact absurd habs (by omega)
        · rintro ⟨-, cached2, hc, hne⟩
          obtain rfl : cached = cached2 := by simpa using hc
          exact absurd heq hne
      · have hr : AuthService.verifyEmail db c email otpSubmitted dev sid
            rtok now = errResult db
              (CacheService.incrementOTPAttempts c email)
              (AppException.badRequest "Invalid OTP") := by
          simp only [AuthService.verifyEmail, hotp]
          rw [if_neg hcap, if_pos heq]
          rfl
        refine ⟨fun h => absurd h hcap, ?_⟩
        rw [hr]
        constructor
        · intro _
          exact ⟨hlt, cached, rfl, heq⟩
        · intro _
          exact getOTPAttempts_increment c email

/-- A cache holding a stored OTP for `a@b.com` with the attempt counter
already at 5. -/
def C3cacheAt5 : CacheState :=
  { userPermissions := [], userRoles := [], otp := [("a@b.com", "123456")],
    otpAttempts := [("a@b.com", 5)], refreshTokens := [], sessions := [] }

/-- Same cache with no attempts recorded yet. -/
def C3cacheFresh : CacheState :=
  { userPermissions := [], userRoles := [], otp := [("a@b.com", "123456")],
    otpAttempts := [], refreshTokens := [], sessions := [] }

/-- C3 witness: with the counter at 5 and the correct OTP cached, the 6th
attempt with the correct OTP is still rejected; and a fresh mismatching
attempt bumps the counter from 0 to 1. -/
theorem C3_otp_attempt_cap_and_increment_witness :
    ((AuthService.verifyEmail C4exDb C3cacheAt5 "a@b.com" "123456" "d" "s"
        "r" "t").out
      = Except.error (AppException.badRequest
          "Too many failed attempts. Please request a new OTP.")) ∧
    CacheService.getOTPAttempts
      (AuthService.verifyEmail C4exDb C3cacheFresh "a@b.com" "999999" "d"
        "s" "r" "t").cache "a@b.com" = 1 := by
  constructor
  · exact ((C3_otp_attempt_cap_and_increment C4exDb C3cacheAt5 "a@b.com"
      "123456" "d" "s" "r" "t").1 (by decide)).1
  · have h := ((C3_otp_attempt_cap_and_increment C4exDb C3cacheFresh
      "a@b.com" "999999" "d" "s" "r" "t").2).mpr
      ⟨by decide, "123456", by decide, by decide⟩
    simpa using h

/-- A refresh-token record for session `s1` of user `u1`. -/
def C1tokenData : RefreshData :=
  { userId := "u1", sessionId := "s1", createdAt := "t0",
    deviceInfo := "d" }

/-- A cache holding one refresh-token record `tok1` for session `s1` of
user `u1`. -/
def C1cache : CacheState :=
  { userPermissions := [], userRoles := [], otp := [], otpAttempts := [],
    refreshTokens := [("tok1", C1tokenData)],
    sessions := [("u1",
      [{ sessionId := "s1", deviceInfo := "d", createdAt := "t0",
         lastActive := "t0" }])] }

/-- C1: the refresh rotation is unreachable in the frozen program.  At the
most favorable input — a valid cached refresh token for an existing,
verified user — `refreshAccessToken` throws the Prisma validation error
raised by the repository's user lookup (the wrapper injects the unknown
column `deleted_at`), before deleting or storing any refresh-token record:
the used token is never consumed, its record is still in the cache
afterwards, and a replay of the same token hits the same validation error
rather than the claimed `Invalid refresh token` rejection. -/
theorem C1_refresh_rotation_unreachable :
    (AuthService.refreshAccessToken C4exDb C1cache "tok1" none "tok2"
        "t1").out
      = Except.error (AppException.internalError
          "PrismaClientValidationError: Unknown argument deleted_at") ∧
    CacheService.getRefreshToken
        (AuthService.refreshAccessToken C4exDb C1cache "tok1" none "tok2"
          "t1").cache "tok1"
      = some C1tokenData ∧
    (AuthService.refreshAccessToken C4exDb
        (AuthService.refreshAccessToken C4exDb C1cache "tok1" none "tok2"
          "t1").cache "tok1" none "tok3" "t2").out
      = Except.error (AppException.internalError
          "PrismaClientValidationError: Unknown argument deleted_at") :=
  ⟨rfl, rfl, rfl⟩

theorem mem_getUserPermissions_of (db : Db) (userId rid k : String)
    (u : User) (hu : findUserById db userId = some u)
    (hur : (userId, rid) ∈ db.userRoles)
    (hrp : (rid, k) ∈ db.rolePermissions) :
    k ∈ RbacService.getUserPermissions db userId := by
  simp only [RbacService.getUserPermissions, hu]
  rw [mem_jsSetDedup, List.mem_flatMap]
  exact ⟨rid, (mem_roleIdsOfUser db userId rid).mpr hur,
    (mem_permKeysOfRole db rid k).mpr hrp⟩

theorem grpCache_miss (db : Db) (c : CacheState) (userId : String)
    (h : CacheService.getUserRoles c userId = none) :
    (getRolesAndPermissionsWithCache db c userId).1
      = RbacService.getUserRoles db userId ∧
    (getRolesAndPermissionsWithCache db c userId).2.1
      = RbacService.getUserPermissions db userId := by
  unfold getRolesAndPermissionsWithCache
  rw [h]
  exact ⟨rfl, rfl⟩

/-- C8: for an existing user and an existing role, `assignRoleToUser`
upserts the user-role join row and deletes both cached entries for the
user, so the next `getRolesAndPermissionsWithCache` read misses the cache,
re-derives both lists from the relational store, and the derived permission
set contains every permission key of the newly assigned role. -/
theorem C8_assign_role_invalidates_cache (db db' : Db) (c c' : CacheState)
    (userId roleName : String) (role : Role) (u : User)
    (hrole : db.roles.find? (fun r => r.name == roleName) = some role)
    (huser : findUserById db userId = some u)
    (hres : RbacService.assignRoleToUser db c userId roleName
      = Except.ok (db', c')) :
    (userId, role.id) ∈ db'.userRoles ∧
    CacheService.getUserPermissions c' userId = none ∧
    CacheService.getUserRoles c' userId = none ∧
    db'.users = db.users ∧
    db'.rolePermissions = db.rolePermissions ∧
    (∀ k, (role.id, k) ∈ db.rolePermissions →
      k ∈ RbacService.getUserPermissions db' userId) ∧
    (getRolesAndPermissionsWithCache db' c' userId).1
      = RbacService.getUserRoles db' userId ∧
    (getRolesAndPermissionsWithCache db' c' userId).2.1
      = RbacService.getUserPermissions db' userId := by
  simp only [RbacService.assignRoleToUser, hrole] at hres
  by_cases hmem : (userId, role.id) ∈ db.userRoles
  · rw [if_pos hmem] at hres
    obtain ⟨hdb, hc⟩ : db = db' ∧ CacheService.invalidateUserCache c userId
        = c' := by
      have := Except.ok.inj hres
      exact ⟨congrArg Prod.fst this, congrArg Prod.snd this⟩
    subst hdb
    subst hc
    have hpermnone : CacheService.getUserPermissions
        (CacheService.invalidateUserCache c userId) userId = none := by
      simp [CacheService.getUserPermissions,
        CacheService.invalidateUserCache, Store.get_del_self]
    have hrolenone : CacheService.getUserRoles
        (CacheService.invalidateUserCache c userId) userId = none := by
      simp [CacheService.getUserRoles, CacheService.invalidateUserCache,
        Store.get_del_self]
    refine ⟨hmem, hpermnone, hrolenone, rfl, rfl, ?_, ?_, ?_⟩
    · intro k hk
      exact mem_getUserPermissions_of db userId role.id k u huser hmem hk
    · exact (grpCache_miss db _ userId hrolenone).1
    · exact (grpCache_miss db _ userId hrolenone).2
  · rw [if_neg hmem] at hres
    obtain ⟨hdb, hc⟩ :
        { db with userRoles := db.userRoles ++ [(userId, role.id)] } = db'
          ∧ CacheService.invalidateUserCache c userId = c' := by
      have := Except.ok.inj hres
      exact ⟨congrArg Prod.fst this, congrArg Prod.snd this⟩
    subst hdb
    subst hc
    have hmem' : (userId, role.id) ∈ db.userRoles ++ [(userId, role.id)] :=
      List.mem_append.mpr (Or.inr (by simp))
    have huser' : findUserById
        { db with userRoles := db.userRoles ++ [(userId, role.id)] } userId
        = some u := huser
    have hpermnone : CacheService.getUserPermissions
        (CacheService.invalidateUserCache c userId) userId = none := by
      simp [CacheService.getUserPermissions,
        CacheService.invalidateUserCache, Store.get_del_self]
    have hrolenone : CacheService.getUserRoles
        (CacheService.invalidateUserCache c userId) userId = none := by
      simp [CacheService.getUserRoles, CacheService.invalidateUserCache,
        Store.get_del_self]
    refine ⟨hmem', hpermnone, hrolenone, rfl, rfl, ?_, ?_, ?_⟩
    · intro k hk
      exact mem_getUserPermissions_of _ userId role.id k u huser' hmem' hk
    · exact (grpCache_miss _ _ userId hrolenone).1
    · exact (grpCache_miss _ _ userId hrolenone).2

/-- A cache with stale role/permission entries for `u1`. -/
def C8cache : CacheState :=
  { userPermissions := [("u1", ["stale.permission"])],
    userRoles := [("u1", ["STALE"])], otp := [], otpAttempts := [],
    refreshTokens := [], sessions := [] }

/-- C8 witness: assigning `USER` to `u1` succeeds and wipes the stale
cached permissions entry. -/
theorem C8_assign_role_invalidates_cache_witness :
    ("u1", "r1") ∈ C4exDb.userRoles ∧
    CacheService.getUserPermissions
      (CacheService.invalidateUserCache C8cache "u1") "u1" = none := by
  have h := C8_assign_role_invalidates_cache C4exDb C4exDb C8cache
    (CacheService.invalidateUserCache C8cache "u1") "u1" "USER"
    { id := "r1", name := "USER" } (mkUser "u1" "a@b.com" "+15550001")
    (by decide) (by decide) (by rfl)
  exact ⟨h.1, h.2.1⟩

/-- Modelled from the spec: `internationalisePhoneNumber`
(`app/common/utils/phonenumber.utils`) is imported and called by `register`
but its source file is not part of this repository snapshot; the spec says
only that the submitted phone number is internationalised before the
duplicate check and storage.  The model keeps a number already in
international (`+`-prefixed) form unchanged. -/
def modelIntlPhone (phone : String) : String :=
  match phone.data with
  | '+' :: _ => phone
  | _ => "+" ++ phone

/-- One existing user whose email is `a@b.com` and whose phone is already
in international form. -/
def C2db : Db :=
  { users := [mkUser "u1" "a@b.com" "+2348012345678"],
    roles := [{ id := "r1", name := "USER" }], rolePermissions := [],
    userRoles := [] }

/-- A registration whose email differs from the existing user's only by
case and whose phone is identical. -/
def C2dto : AuthService.RegisterDto :=
  { email := "A@B.COM", password := "password1", firstName := some "New",
    lastName := some "Person", phone := "+2348012345678",
    companyName := none }

/-- The same registration with the exact (same-case) duplicate email. -/
def C2dtoExact : AuthService.RegisterDto :=
  { email := "a@b.com", password := "password1", firstName := some "New",
    lastName := some "Person", phone := "+2348012345678",
    companyName := none }

/-- C2 counterexample: with `a@b.com` (phone `+2348012345678`) already
registered, submitting the very same email and phone does not fail with a
conflict error: the call throws the repository's Prisma validation error
(unknown `deleted_at` argument) at the email lookup, before any duplicate
check runs.  No user is created, but not for the claimed reason. -/
theorem C2_register_counterexample :
    (AuthService.register C2db emptyCache C2dtoExact "INDIVIDUAL"
        modelIntlPhone "hash" "u2" "111111").out
      = Except.error (AppException.internalError
          "PrismaClientValidationError: Unknown argument deleted_at") ∧
    (AuthService.register C2db emptyCache C2dtoExact "INDIVIDUAL"
        modelIntlPhone "hash" "u2" "111111").db = C2db :=
  ⟨rfl, rfl⟩

/-- C2 (amended): every register call that passes the account-type and
name-field validation — whether or not the email or phone is already in
use, in any case formatting — throws the Prisma validation error raised by
the repository's email lookup (`PrismaBaseRepository.findOne` injects the
unknown column `deleted_at` into the `where` clause), before any duplicate
check is reached; no conflict error is ever produced, and no user is ever
created (database and cache are left unchanged). -/
theorem C2_register_validation_throw (db : Db) (c : CacheState)
    (dto : AuthService.RegisterDto) (accountType : String)
    (intlPhone : String → String) (hp nid otpv : String)
    (hvalid : (jsToUpper accountType = "INDIVIDUAL" ∧
        jsFalsyStr dto.firstName = false ∧ jsFalsyStr dto.lastName = false)
      ∨ (jsToUpper accountType = "CORPORATE" ∧
        jsFalsyStr dto.companyName = false)) :
    (AuthService.register db c dto accountType intlPhone hp nid otpv).out
      = Except.error (AppException.internalError
          "PrismaClientValidationError: Unknown argument deleted_at") ∧
    (AuthService.register db c dto accountType intlPhone hp nid otpv).db
      = db ∧
    (AuthService.register db c dto accountType intlPhone hp nid
      otpv).cache = c := by
  have hup : jsToUpper accountType = "INDIVIDUAL"
      ∨ jsToUpper accountType = "CORPORATE" := by
    rcases hvalid with ⟨h, -, -⟩ | ⟨h, -⟩
    · exact Or.inl h
    · exact Or.inr h
  have hnotInd : ¬ (jsToUpper accountType = "INDIVIDUAL" ∧
      (jsFalsyStr dto.firstName = true ∨ jsFalsyStr dto.lastName = true))
      := by
    rcases hvalid with ⟨-, hf, hl⟩ | ⟨hC, -⟩
    · rintro ⟨-, hb | hb⟩
      · rw [hf] at hb; exact absurd hb (by simp)
      · rw [hl] at hb; exact absurd hb (by simp)
    · rintro ⟨hI, -⟩
      rw [hC] at hI
      exact absurd hI (by decide)
  have hnotCorp : ¬ (jsToUpper accountType = "CORPORATE" ∧
      jsFalsyStr dto.companyName = true) := by
    rcases hvalid with ⟨hI, -, -⟩ | ⟨-, hcn⟩
    · rintro ⟨hC, -⟩
      rw [hI] at hC
      exact absurd hC (by decide)
    · rintro ⟨-, hb⟩
      rw [hcn] at hb
      exact absurd hb (by simp)
  have hr : AuthService.register db c dto accountType intlPhone hp nid
      otpv = errResult db c (AppException.internalError
        "PrismaClientValidationError: Unknown argument deleted_at") := by
    simp only [AuthService.register]
    rw [if_neg (not_not_intro hup), if_neg hnotInd, if_neg hnotCorp]
    rfl
  exact ⟨by rw [hr]; rfl, by rw [hr]; rfl, by rw [hr]; rfl⟩

/-- C2 amended-claim witness: the validation throw at a concrete
registration (differently-cased duplicate email, duplicate phone) — no user
created, no conflict. -/
theorem C2_register_validation_throw_witness :
    (AuthService.register C2db emptyCache C2dto "INDIVIDUAL"
        modelIntlPhone "hash" "u2" "111111").out
      = Except.error (AppException.internalError
          "PrismaClientValidationError: Unknown argument deleted_at") ∧
    (AuthService.register C2db emptyCache C2dto "INDIVIDUAL"
        modelIntlPhone "hash" "u2" "111111").db = C2db := by
  have h := C2_register_validation_throw C2db emptyCache C2dto
    "INDIVIDUAL" modelIntlPhone "hash" "u2" "111111"
    (Or.inl ⟨by decide, by decide, by decide⟩)
  exact ⟨h.1, h.2.1⟩

theorem getUserSessions_eq_of_sessions_eq (c1 c2 : CacheState)
    (uid : String) (h : c1.sessions = c2.sessions) :
    CacheService.getUserSessions c1 uid
      = CacheService.getUserSessions c2 uid := by
  simp [CacheService.getUserSessions, h]

theorem getUserSessions_add (c : CacheState) (uid sid dev now : String) :
    CacheService.getUserSessions
        (CacheService.addUserSession c uid sid dev now) uid
      = CacheService.getUserSessions c uid
          ++ [{ sessionId := sid, deviceInfo := dev, createdAt := now,
                lastActive := now }] := by
  simp [CacheService.addUserSession, CacheService.getUserSessions,
    Store.get_set_self]

theorem removeUserSession_sessions_eq (c : CacheState) (uid sid : String) :
    CacheService.getUserSessions
        (CacheService.removeUserSession c uid sid) uid
      = (CacheService.getUserSessions c uid).filter
          (fun s => !(s.sessionId == sid)) := by
  unfold CacheService.removeUserSession
  by_cases h : ((CacheService.getUserSessions c uid).filter
      (fun s => !(s.sessionId == sid))).length > 0
  · simp only [h, if_pos]
    simp [CacheService.getUserSessions, Store.get_set_self]
  · simp only [h, if_neg]
    have hnil : (CacheService.getUserSessions c uid).filter
        (fun s => !(s.sessionId == sid)) = [] := by
      cases hf : (CacheService.getUserSessions c uid).filter
          (fun s => !(s.sessionId == sid)) with
      | nil => rfl
      | cons a l => rw [hf] at h; simp at h
    rw [hnil]
    simp [CacheService.getUserSessions, Store.get_del_self]

theorem refresh_cache_unchanged (db : Db) (c : CacheState) (t : String)
    (ndi : Option String) (ntok now : String) :
    (AuthService.refreshAccessToken db c t ndi ntok now).cache = c := by
  cases hrt : CacheService.getRefreshToken c t with
  | none => simp only [AuthService.refreshAccessToken, hrt]
  | some sd =>
    have hfe : userRepoFindOne db [("id", fun u => u.id == sd.userId)]
        = Except.error (AppException.internalError
            "PrismaClientValidationError: Unknown argument deleted_at") :=
      rfl
    simp only [AuthService.refreshAccessToken, hrt, hfe]
    rfl

theorem login_cache_unchanged (db : Db) (c : CacheState)
    (email pw : String) (cpw : String → String → Bool)
    (dev sid rtok otpv now : String) :
    (AuthService.login db c email pw cpw dev sid rtok otpv now).cache
      = c := by
  have hfe : userRepoFindOne db [("email", fun u => u.email == email)]
      = Except.error (AppException.internalError
          "PrismaClientValidationError: Unknown argument deleted_at") :=
    rfl
  simp only [AuthService.login, hfe]
  rfl

/-- C7 counterexample: at the most favorable inputs — a valid cached
refresh token for an existing verified user, and a login with that user's
correct credentials — neither `refreshAccessToken` nor `login` changes the
stored session list: both throw at the repository user lookup (unknown
`deleted_at` argument) before any session write. -/
theorem C7_refresh_login_leave_sessions_counterexample :
    ((AuthService.refreshAccessToken C4exDb C1cache "tok1" none "tok2"
        "t1").cache).sessions = C1cache.sessions ∧
    ((AuthService.login C4exDb C1cache "a@b.com" "h" (fun a b => a == b)
        "d" "s9" "rt" "999" "t5").cache).sessions = C1cache.sessions :=
  ⟨rfl, rfl⟩

/-- C7 (amended): only the logout operations mutate the session registry:
`logoutSession` removes exactly the records matching the session id
(deleting the per-user key when none remain) and `logoutAllSessions`
deletes the key; `login` and `refreshAccessToken` leave the cache — in
particular the stored session list — unchanged on every path, because both
throw at the repository user lookup (unknown `deleted_at` argument) before
any cache write. -/
theorem C7_session_registry_mutations (db : Db) (c : CacheState)
    (t : String) (ndi : Option String) (ntok now uid sid dev email pw :
    String) (cpw : String → String → Bool) (rtok otpv : String) :
    (AuthService.refreshAccessToken db c t ndi ntok now).cache = c ∧
    (AuthService.login db c email pw cpw dev sid rtok otpv now).cache
      = c ∧
    CacheService.getUserSessions (AuthService.logoutAllSessions c uid) uid
      = [] ∧
    CacheService.getUserSessions (AuthService.logoutSession c uid sid) uid
      = (CacheService.getUserSessions c uid).filter
          (fun s => !(s.sessionId == sid)) := by
  refine ⟨refresh_cache_unchanged db c t ndi ntok now,
    login_cache_unchanged db c email pw cpw dev sid rtok otpv now, ?_,
    removeUserSession_sessions_eq c uid sid⟩
  simp [AuthService.logoutAllSessions, CacheService.removeAllUserSessions,
    CacheService.getUserSessions, Store.get_del_self]

/-- C5 witness: a route requiring `user.read` admits a principal holding
`user.read` and `user.write`. -/
theorem C5_permissions_guard_fails_closed_witness :
    PermissionsGuard.canActivate (some ["user.read"])
      (some { permissions := some ["user.read", "user.write"] })
      = Except.ok true :=
  ((C5_permissions_guard_fails_closed (some ["user.read"])
    (some { permissions := some ["user.read", "user.write"] })).1).mpr
    (Or.inr (Or.inr ⟨["user.read"], _, ["user.read", "user.write"], rfl,
      rfl, rfl, by decide⟩))
